import Mathlib

/-!
# Verification of the `webcolors` color-conversion library

Shallow embedding of `go-webcolors.go` (package `webcolors`): the color
name/hex tables of the HTML4/CSS2/CSS2.1/CSS3 specifications, the
normalization routines for hexadecimal colors, integer rgb triplets and
percentage rgb triplets, and the conversions between the four color
representations.

Modelling conventions, used consistently below:

* Go strings are Lean `String`s.  The library's own data is pure ASCII;
  `strings.ToLower` is modelled on ASCII letters only (`toLowerGo`).
* A Go `map[string]string` literal is an association list with distinct
  keys, looked up with `mapLookup` (first match; for distinct keys the
  order of the entries is irrelevant, matching Go map lookup semantics).
* Go map *iteration* order is unspecified and randomized per run.  A
  function that iterates over a map (`reverseMap`) therefore takes the
  entries in an explicit list: one run of the Go program corresponds to
  one permutation of the table's entry list, and theorems quantify over
  (or exhibit) such permutations.
* A Go function that can terminate the program with a runtime panic
  (index out of range) is modelled with an `Option` result whose `none`
  is the panic.  `NormalizeHex` has Go type `string` (it returns no
  error value at all): on input that does not match `HexColorRegex`,
  `FindStringSubmatch` returns the nil slice and indexing `[1]` panics,
  which is `none` here.
* A Go function returning `(T, error)` that cannot panic is modelled as
  `Option T` with `none` for a returned non-nil error.  Functions that
  can both panic and return an error (`HexToName`, `RGBToName`) return
  `Option (Option T)`: the outer `none` is a panic, the inner `none` a
  returned error.  The Go library builds all its errors with
  `errors.New`, so error "kinds" exist only as message text and are not
  modelled beyond the error/panic/value distinction.
* `float64` values are modelled by exact rational numbers.  All rational
  computation is written with `mkRat`, `Int.fdiv` and comparisons (which
  the kernel evaluates), and related to the ordinary field operations of
  `ℚ` by the bridge lemmas further down.  Parsing (`strconv.ParseFloat`)
  is modelled exactly on decimal literals with optional sign, dot and
  exponent; Go's additional hexadecimal-literal, underscore, "Inf" and
  "NaN" forms are not modelled ("Inf"/"NaN" contain no digit or dot and
  cannot reach the float branch of `normalizePercentRGB`, which is the
  only call site fed unnormalized input).  `strconv.FormatFloat` with
  format `'g'` and precision 4 is modelled by `formatG4` (4 significant
  digits, ties to even, trailing zeros stripped, scientific notation for
  decimal exponents below -4 or at least 4, matching Go's `ftoa`).
-/

namespace Webcolors

/-- ASCII lower-casing of one character: the effect of Go `strings.ToLower`
on the ASCII strings this library handles. -/
def toLowerGo (c : Char) : Char :=
  if 65 ≤ c.toNat ∧ c.toNat ≤ 90 then Char.ofNat (c.toNat + 32) else c

/-- Go `strings.ToLower` on an ASCII string. -/
def lowerStr (s : String) : String := ⟨s.data.map toLowerGo⟩

/-- Membership of one character in the class `[a-fA-F0-9]` of
`HexColorRegex`. -/
def isHexDigitGo (c : Char) : Bool :=
  (48 ≤ c.toNat && c.toNat ≤ 57) || (97 ≤ c.toNat && c.toNat ≤ 102)
    || (65 ≤ c.toNat && c.toNat ≤ 70)

/-- Lookup in a Go `map[string]string` modelled as an association list
with distinct keys. -/
def mapLookup (m : List (String × String)) (k : String) : Option String :=
  (m.find? fun p => p.1 == k).map (·.2)

/-- `SupportedSpecifications = []string{HTML4, CSS2, CSS21, CSS3}`. -/
def SupportedSpecifications : List String := ["html4", "css2", "css21", "css3"]

/-- The `HTML4NamesToHex` map literal, in source order. -/
def HTML4NamesToHex : List (String × String) := [
  ("aqua", "#00ffff"),
  ("black", "#000000"),
  ("blue", "#0000ff"),
  ("fuchsia", "#ff00ff"),
  ("green", "#008000"),
  ("gray", "#808080"),
  ("grey", "#808080"),
  ("lime", "#00ff00"),
  ("maroon", "#800000"),
  ("navy", "#000080"),
  ("olive", "#808000"),
  ("purple", "#800080"),
  ("red", "#ff0000"),
  ("silver", "#c0c0c0"),
  ("teal", "#008080"),
  ("white", "#ffffff"),
  ("yellow", "#ffff00")]

/-- `CSS2NamesToHex = HTML4NamesToHex` (the same map object). -/
def CSS2NamesToHex : List (String × String) := HTML4NamesToHex

/-- `CSS21NamesToHex`: filled by `init()` with a copy of every html4
entry plus `orange → #ffa500`.  The copy loop's iteration order does not
affect map lookups (the keys are distinct), so one fixed entry order
represents the map. -/
def CSS21NamesToHex : List (String × String) :=
  HTML4NamesToHex ++ [("orange", "#ffa500")]

/-- The `CSS3NamesToHex` map literal, in source order. -/
def CSS3NamesToHex : List (String × String) := [
  ("aliceblue", "#f0f8ff"),
  ("antiquewhite", "#faebd7"),
  ("aqua", "#00ffff"),
  ("aquamarine", "#7fffd4"),
  ("azure", "#f0ffff"),
  ("beige", "#f5f5dc"),
  ("bisque", "#ffe4c4"),
  ("black", "#000000"),
  ("blanchedalmond", "#ffebcd"),
  ("blue", "#0000ff"),
  ("blueviolet", "#8a2be2"),
  ("brown", "#a52a2a"),
  ("burlywood", "#deb887"),
  ("cadetblue", "#5f9ea0"),
  ("chartreuse", "#7fff00"),
  ("chocolate", "#d2691e"),
  ("coral", "#ff7f50"),
  ("cornflowerblue", "#6495ed"),
  ("cornsilk", "#fff8dc"),
  ("crimson", "#dc143c"),
  ("cyan", "#00ffff"),
  ("darkblue", "#00008b"),
  ("darkcyan", "#008b8b"),
  ("darkgoldenrod", "#b8860b"),
  ("darkgray", "#a9a9a9"),
  ("darkgrey", "#a9a9a9"),
  ("darkgreen", "#006400"),
  ("darkkhaki", "#bdb76b"),
  ("darkmagenta", "#8b008b"),
  ("darkolivegreen", "#556b2f"),
  ("darkorange", "#ff8c00"),
  ("darkorchid", "#9932cc"),
  ("darkred", "#8b0000"),
  ("darksalmon", "#e9967a"),
  ("darkseagreen", "#8fbc8f"),
  ("darkslateblue", "#483d8b"),
  ("darkslategray", "#2f4f4f"),
  ("darkslategrey", "#2f4f4f"),
  ("darkturquoise", "#00ced1"),
  ("darkviolet", "#9400d3"),
  ("deeppink", "#ff1493"),
  ("deepskyblue", "#00bfff"),
  ("dimgray", "#696969"),
  ("dimgrey", "#696969"),
  ("dodgerblue", "#1e90ff"),
  ("firebrick", "#b22222"),
  ("floralwhite", "#fffaf0"),
  ("forestgreen", "#228b22"),
  ("fuchsia", "#ff00ff"),
  ("gainsboro", "#dcdcdc"),
  ("ghostwhite", "#f8f8ff"),
  ("gold", "#ffd700"),
  ("goldenrod", "#daa520"),
  ("gray", "#808080"),
  ("grey", "#808080"),
  ("green", "#008000"),
  ("greenyellow", "#adff2f"),
  ("honeydew", "#f0fff0"),
  ("hotpink", "#ff69b4"),
  ("indianred", "#cd5c5c"),
  ("indigo", "#4b0082"),
  ("ivory", "#fffff0"),
  ("khaki", "#f0e68c"),
  ("lavender", "#e6e6fa"),
  ("lavenderblush", "#fff0f5"),
  ("lawngreen", "#7cfc00"),
  ("lemonchiffon", "#fffacd"),
  ("lightblue", "#add8e6"),
  ("lightcoral", "#f08080"),
  ("lightcyan", "#e0ffff"),
  ("lightgoldenrodyellow", "#fafad2"),
  ("lightgray", "#d3d3d3"),
  ("lightgrey", "#d3d3d3"),
  ("lightgreen", "#90ee90"),
  ("lightpink", "#ffb6c1"),
  ("lightsalmon", "#ffa07a"),
  ("lightseagreen", "#20b2aa"),
  ("lightskyblue", "#87cefa"),
  ("lightslategray", "#778899"),
  ("lightslategrey", "#778899"),
  ("lightsteelblue", "#b0c4de"),
  ("lightyellow", "#ffffe0"),
  ("lime", "#00ff00"),
  ("limegreen", "#32cd32"),
  ("linen", "#faf0e6"),
  ("magenta", "#ff00ff"),
  ("maroon", "#800000"),
  ("mediumaquamarine", "#66cdaa"),
  ("mediumblue", "#0000cd"),
  ("mediumorchid", "#ba55d3"),
  ("mediumpurple", "#9370db"),
  ("mediumseagreen", "#3cb371"),
  ("mediumslateblue", "#7b68ee"),
  ("mediumspringgreen", "#00fa9a"),
  ("mediumturquoise", "#48d1cc"),
  ("mediumvioletred", "#c71585"),
  ("midnightblue", "#191970"),
  ("mintcream", "#f5fffa"),
  ("mistyrose", "#ffe4e1"),
  ("moccasin", "#ffe4b5"),
  ("navajowhite", "#ffdead"),
  ("navy", "#000080"),
  ("oldlace", "#fdf5e6"),
  ("olive", "#808000"),
  ("olivedrab", "#6b8e23"),
  ("orange", "#ffa500"),
  ("orangered", "#ff4500"),
  ("orchid", "#da70d6"),
  ("palegoldenrod", "#eee8aa"),
  ("palegreen", "#98fb98"),
  ("paleturquoise", "#afeeee"),
  ("palevioletred", "#db7093"),
  ("papayawhip", "#ffefd5"),
  ("peachpuff", "#ffdab9"),
  ("peru", "#cd853f"),
  ("pink", "#ffc0cb"),
  ("plum", "#dda0dd"),
  ("powderblue", "#b0e0e6"),
  ("purple", "#800080"),
  ("red", "#ff0000"),
  ("rosybrown", "#bc8f8f"),
  ("royalblue", "#4169e1"),
  ("saddlebrown", "#8b4513"),
  ("salmon", "#fa8072"),
  ("sandybrown", "#f4a460"),
  ("seagreen", "#2e8b57"),
  ("seashell", "#fff5ee"),
  ("sienna", "#a0522d"),
  ("silver", "#c0c0c0"),
  ("skyblue", "#87ceeb"),
  ("slateblue", "#6a5acd"),
  ("slategray", "#708090"),
  ("slategrey", "#708090"),
  ("snow", "#fffafa"),
  ("springgreen", "#00ff7f"),
  ("steelblue", "#4682b4"),
  ("tan", "#d2b48c"),
  ("teal", "#008080"),
  ("thistle", "#d8bfd8"),
  ("tomato", "#ff6347"),
  ("turquoise", "#40e0d0"),
  ("violet", "#ee82ee"),
  ("wheat", "#f5deb3"),
  ("white", "#ffffff"),
  ("whitesmoke", "#f5f5f5"),
  ("yellow", "#ffff00"),
  ("yellowgreen", "#9acd32")]

/-- `reverseMap`: iterate over the map setting `n[v] = k`; the last write
for a colliding value wins.  `iter` is the entries in the (run-dependent)
iteration order; last-write-wins is first-match lookup in the reversed
swapped list. -/
def reverseMap (iter : List (String × String)) : List (String × String) :=
  (iter.map Prod.swap).reverse

/-- The seven assignments of `init()` that overwrite the css3 reverse
map's entries for the hex values with both a `-gray` and a `-grey` name.
Overwriting an existing key is prepending under first-match lookup. -/
def css3GrayOverrides : List (String × String) := [
  ("#a9a9a9", "darkgray"),
  ("#2f4f4f", "darkslategray"),
  ("#696969", "dimgray"),
  ("#808080", "gray"),
  ("#d3d3d3", "lightgray"),
  ("#778899", "lightslategray"),
  ("#708090", "slategray")]

/-- `CSS3HexToNames` after `init()`: `reverseMap(CSS3NamesToHex)` built
in iteration order `c3iter`, then the seven gray overrides. -/
def CSS3HexToNames (c3iter : List (String × String)) : List (String × String) :=
  css3GrayOverrides ++ reverseMap c3iter

/-- `CSS21HexToNames = reverseMap(CSS21NamesToHex)` is a package-level
variable, initialized *before* `init()` runs; at that moment
`CSS21NamesToHex` is still the empty map made on its declaration line,
and `reverseMap` returns a fresh map, so `CSS21HexToNames` stays empty
forever: `init()` later fills `CSS21NamesToHex` but never rebuilds the
reverse map. -/
def CSS21HexToNames : List (String × String) := []

/-- `NormalizeHex`'s regexp step: `HexColorRegex.FindStringSubmatch(s)[1]`,
the first capture group of `^#([a-fA-F0-9]{3}|[a-fA-F0-9]{6})$`.  `none`
when the regexp does not match: `FindStringSubmatch` then returns nil and
the index expression `[1]` panics. -/
def hexMatchDigits (cs : List Char) : Option (List Char) :=
  match cs with
  | '#' :: rest =>
    if ((rest.length == 3) || (rest.length == 6)) && rest.all isHexDigitGo then
      some rest
    else none
  | _ => none

/-- `NormalizeHex`: normalize a hexadecimal color value to `#` plus six
lowercase digits.  A 3-digit form duplicates every digit
(`strings.Repeat(string(hexDigits[i]), 2)` joined, then `ToLower`); a
6-digit form is lowercased.  `none` models the panic on input that does
not match `HexColorRegex`. -/
def NormalizeHex (HexValue : String) : Option String :=
  (hexMatchDigits HexValue.data).map fun hexDigits =>
    if hexDigits.length == 3 then
      ⟨'#' :: ((hexDigits.map fun c => [c, c]).flatten.map toLowerGo)⟩
    else
      ⟨'#' :: hexDigits.map toLowerGo⟩

/-- `normalizeIntegerRGB`: clamp one component to 0–255. -/
def normalizeIntegerRGB (value : ℤ) : ℤ :=
  if 0 ≤ value ∧ value ≤ 255 then value
  else if value < 0 then 0
  else if 255 < value then 255
  else 0

/-- `NormalizeIntegerTriplet`: reads `RGBTriplet[0]`, `[1]` and `[2]`
unconditionally, so a slice with fewer than three elements panics
(`none`) and elements beyond the third are ignored. -/
def NormalizeIntegerTriplet (RGBTriplet : List ℤ) : Option (List ℤ) :=
  match RGBTriplet with
  | r :: g :: b :: _ =>
    some [normalizeIntegerRGB r, normalizeIntegerRGB g, normalizeIntegerRGB b]
  | _ => none

/-- The value of one hex digit character, as assigned by
`encoding/hex.DecodeString`; `none` on a non-hex character (a decode
error). -/
def hexDigitVal (c : Char) : Option ℕ :=
  if 48 ≤ c.toNat && c.toNat ≤ 57 then some (c.toNat - 48)
  else if 97 ≤ c.toNat && c.toNat ≤ 102 then some (c.toNat - 87)
  else if 65 ≤ c.toNat && c.toNat ≤ 70 then some (c.toNat - 55)
  else none

/-- `hex.DecodeString` on a two-character group followed by `ByteToInt`
of the single decoded byte. -/
def decodeHexPair (c₁ c₂ : Char) : Option ℕ :=
  (hexDigitVal c₁).bind fun a => (hexDigitVal c₂).map fun b => 16 * a + b

/-- One lowercase hex digit character, as produced by
`hex.EncodeToString`. -/
def hexChar (d : ℕ) : Char :=
  Char.ofNat (if d < 10 then 48 + d else 87 + d)

/-- `hex.EncodeToString` of the low byte of `PutUint16`'s big-endian
encoding: two lowercase hex digits of a value in 0–255. -/
def encodeByte (n : ℕ) : List Char := [hexChar (n / 16), hexChar (n % 16)]

/-- `HexToRGB`: normalize the hex value, then decode the character
groups `[1:3]`, `[3:5]`, `[5:7]` of the canonical 7-character string.
The outer `none` is `NormalizeHex`'s panic. -/
def HexToRGB (hexValue : String) : Option (List ℤ) :=
  (NormalizeHex hexValue).bind fun hexDigits =>
    match hexDigits.data with
    | _ :: a :: b :: c :: d :: e :: f :: _ =>
      (decodeHexPair a b).bind fun r =>
      (decodeHexPair c d).bind fun g =>
      (decodeHexPair e f).map fun bl => [(r : ℤ), (g : ℤ), (bl : ℤ)]
    | _ => none

/-- `RGBToHex`: normalize the triplet, then append the two lowercase hex
digits of every component after `#`.  `none` is the panic on a short
slice, propagated from `NormalizeIntegerTriplet`. -/
def RGBToHex (rgbTriplet : List ℤ) : Option String :=
  (NormalizeIntegerTriplet rgbTriplet).map fun integerTriplet =>
    ⟨'#' :: (integerTriplet.map fun v => encodeByte v.toNat).flatten⟩

/-- `NameToHex`: check the specification is supported, lowercase the
name, look it up in that specification's table.  `none` is a returned
error (unsupported specification or unknown name); `NameToHex` cannot
panic. -/
def NameToHex (name spec : String) : Option String :=
  if SupportedSpecifications.contains spec then
    let normalized := lowerStr name
    match spec with
    | "html4" => mapLookup HTML4NamesToHex normalized
    | "css2" => mapLookup CSS2NamesToHex normalized
    | "css21" => mapLookup CSS21NamesToHex normalized
    | "css3" => mapLookup CSS3NamesToHex normalized
    | _ => none
  else none

/-- `HexToName`: check the specification is supported, normalize the hex
value (which can panic: outer `none`), look it up in that
specification's reverse table (inner `none` on a returned error).
`h4iter` is the iteration order `HTML4HexToNames` was built from at
package initialization (shared by html4 and css2, since
`CSS2HexToNames = HTML4HexToNames`); `c3iter` likewise for css3. -/
def HexToName (hexValue spec : String)
    (h4iter c3iter : List (String × String)) : Option (Option String) :=
  if SupportedSpecifications.contains spec then
    (NormalizeHex hexValue).map fun normalized =>
      match spec with
      | "html4" => mapLookup (reverseMap h4iter) normalized
      | "css2" => mapLookup (reverseMap h4iter) normalized
      | "css21" => mapLookup CSS21HexToNames normalized
      | "css3" => mapLookup (CSS3HexToNames c3iter) normalized
      | _ => none
  else some none

/-- `RGBToName = HexToName(RGBToHex(NormalizeIntegerTriplet(t)), spec)`. -/
def RGBToName (rgbTriplet : List ℤ) (spec : String)
    (h4iter c3iter : List (String × String)) : Option (Option String) :=
  (NormalizeIntegerTriplet rgbTriplet).bind fun t =>
    (RGBToHex t).bind fun hx => HexToName hx spec h4iter c3iter

/-! ### Kernel-computable rational arithmetic

`float64` values are modelled by exact `ℚ` values.  The field operations
of `ℚ` are `@[irreducible]` in the library, so the model computes with
`mkRat`/`Int.fdiv` forms of the same operations; the bridge lemmas in
the theorem section identify them with `+`, `*`, `/`, `⌊·⌋`, `⌈·⌉`. -/

/-- The rational `n`. -/
def intQ (n : ℤ) : ℚ := mkRat n 1

/-- Rational addition, `mkRat` form. -/
def qadd (a b : ℚ) : ℚ := mkRat (a.num * b.den + b.num * a.den) (a.den * b.den)

/-- Rational negation, `mkRat` form. -/
def qneg (a : ℚ) : ℚ := mkRat (-a.num) a.den

/-- Rational subtraction, `mkRat` form. -/
def qsub (a b : ℚ) : ℚ := qadd a (qneg b)

/-- Rational multiplication, `mkRat` form. -/
def qmul (a b : ℚ) : ℚ := mkRat (a.num * b.num) (a.den * b.den)

/-- Division of a rational by a positive natural, `mkRat` form. -/
def qdivNat (a : ℚ) (n : ℕ) : ℚ := mkRat a.num (a.den * n)

/-- The rational `10 ^ e` for an integer exponent. -/
def qpow10 (e : ℤ) : ℚ :=
  if 0 ≤ e then mkRat (((10 : ℕ) ^ e.toNat : ℕ) : ℤ) 1 else mkRat 1 ((10 : ℕ) ^ (-e).toNat)

/-- `math.Floor` on an exact rational. -/
def qfloor (a : ℚ) : ℤ := a.num.fdiv a.den

/-- `math.Ceil` on an exact rational. -/
def qceil (a : ℚ) : ℤ := -((-a.num).fdiv a.den)

/-- One character of the class `[0-9]`. -/
def isDigitGo (c : Char) : Bool := 48 ≤ c.toNat && c.toNat ≤ 57

/-- The value of a string of decimal digit characters. -/
def digitsVal (ds : List Char) : ℕ := ds.foldl (fun a c => 10 * a + (c.toNat - 48)) 0

/-- The exponent suffix of a Go floating-point literal: empty (exponent
0), or `e`/`E`, an optional sign and one or more digits, reaching to the
end of the literal. -/
def parseExpPart (cs : List Char) : Option ℤ :=
  match cs with
  | [] => some 0
  | c :: t =>
    if c == 'e' || c == 'E' then
      match t with
      | '+' :: d => if !d.isEmpty && d.all isDigitGo then some (digitsVal d : ℤ) else none
      | '-' :: d => if !d.isEmpty && d.all isDigitGo then some (-(digitsVal d : ℤ)) else none
      | d => if !d.isEmpty && d.all isDigitGo then some (digitsVal d : ℤ) else none
    else none

/-- `strconv.ParseFloat`'s overflow condition, `|value| ≥ 2^1024`
(`ErrRange`; the true boundary differs by half an ulp of the largest
finite `float64`, unreachable from this library's inputs). -/
def floatOverflows (q : ℚ) : Bool :=
  (2 : ℕ) ^ 1024 * q.den ≤ q.num.natAbs

/-- `strconv.ParseFloat(s, 64)` with the parsed value kept exact:
optional sign, decimal digits with at most one dot (at least one digit
overall), optional exponent part; `none` on a syntax or range error.
Go's hexadecimal-literal and underscore forms are not modelled, nor are
the special "Inf"/"NaN" words (no call site can reach them: the float
branch of `normalizePercentRGB` requires a `.` in the argument, and
`percentToInteger` only receives normalized percent strings). -/
def goParseFloat (s : String) : Option ℚ :=
  let signAndRest : Bool × List Char :=
    match s.data with
    | '+' :: t => (false, t)
    | '-' :: t => (true, t)
    | t => (false, t)
  let neg := signAndRest.1
  let cs := signAndRest.2
  let ip := cs.takeWhile isDigitGo
  let rest := cs.dropWhile isDigitGo
  let mant : Option (ℚ × List Char) :=
    match rest with
    | '.' :: t =>
      let fp := t.takeWhile isDigitGo
      let rest2 := t.dropWhile isDigitGo
      if ip.isEmpty && fp.isEmpty then none
      else some (qadd (intQ (digitsVal ip)) (mkRat (digitsVal fp) (10 ^ fp.length)), rest2)
    | _ => if ip.isEmpty then none else some (intQ (digitsVal ip), rest)
  mant.bind fun me =>
    (parseExpPart me.2).bind fun ex =>
      let mag := qmul me.1 (qpow10 ex)
      let q := if neg then qneg mag else mag
      if floatOverflows q then none else some q

/-- `strconv.Atoi`: optional sign and one or more decimal digits
reaching the end of the string; `none` on a syntax error or a value
outside the 64-bit int range (Go then returns a non-nil error). -/
def goAtoi (s : String) : Option ℤ :=
  let signAndRest : Bool × List Char :=
    match s.data with
    | '+' :: t => (false, t)
    | '-' :: t => (true, t)
    | t => (false, t)
  let neg := signAndRest.1
  let ds := signAndRest.2
  if !ds.isEmpty && ds.all isDigitGo then
    let v : ℤ := if neg then -(digitsVal ds : ℤ) else (digitsVal ds : ℤ)
    if v < -(((2 : ℕ) ^ 63 : ℕ) : ℤ) ∨ (((2 : ℕ) ^ 63 : ℕ) : ℤ) - 1 < v then none
    else some v
  else none

/-- `strings.Split(value, "%")[0]`: the text before the first `%`, or
the whole string when it has none (`Split` never returns an empty
slice for a non-empty separator, so the index cannot panic). -/
def beforePercent (s : String) : String := ⟨s.data.takeWhile (fun c => c != '%')⟩

/-- Drop trailing `'0'` characters. -/
def stripZeros (ds : List Char) : List Char := (ds.reverse.dropWhile (· == '0')).reverse

/-- Decimal digit count of a natural number (`fuel`-structured; `fuel ≥ n`
suffices). -/
def numDigitsAux : ℕ → ℕ → ℕ
  | 0, _ => 1
  | fuel + 1, n => if n < 10 then 1 else numDigitsAux fuel (n / 10) + 1

/-- Smallest `k` with `10 ^ k * q ≥ 1`, for `0 < q < 1` (`fuel`-structured;
`fuel ≥ q.den + 1` suffices). -/
def negExpAux : ℕ → ℚ → ℕ
  | 0, _ => 0
  | fuel + 1, q => if intQ 1 ≤ q then 0 else negExpAux fuel (qmul (intQ 10) q) + 1

/-- The decimal exponent of a positive rational: the unique `e` with
`10 ^ e ≤ q < 10 ^ (e + 1)`. -/
def decExp (q : ℚ) : ℤ :=
  if intQ 1 ≤ q then (numDigitsAux (qfloor q).toNat (qfloor q).toNat : ℤ) - 1
  else -(negExpAux (q.den + 2) q : ℤ)

/-- Round to the nearest integer, ties to even: the rounding of Go's
`strconv` decimal formatting routine. -/
def rte (q : ℚ) : ℤ :=
  let f := qfloor q
  if qsub q (intQ f) < mkRat 1 2 then f
  else if mkRat 1 2 < qsub q (intQ f) then f + 1
  else if f % 2 == 0 then f else f + 1

/-- The decimal digit characters of a natural number. -/
def natDigits (n : ℕ) : List Char := (toString n).data

/-- `strconv.FormatFloat(q, 'g', 4, 64)` on an exact nonnegative
rational: 4 significant digits (ties to even), trailing zeros removed,
`%e` style for decimal exponents below -4 or at least 4 (the precision)
and `%f` style otherwise, as Go's `ftoa` does. -/
def formatG4 (q : ℚ) : String :=
  if q ≤ intQ 0 then "0"
  else
    let e0 := decExp q
    let m0 := rte (qmul q (qpow10 (3 - e0)))
    let m := if m0 == 10000 then 1000 else m0
    let e := if m0 == 10000 then e0 + 1 else e0
    let ds := natDigits m.toNat
    if e < -4 ∨ 4 ≤ e then
      let frac := stripZeros (ds.drop 1)
      let mant : List Char := if frac.isEmpty then ds.take 1 else ds.take 1 ++ '.' :: frac
      let a := e.natAbs
      let es := if a < 10 then "0" ++ toString a else toString a
      (⟨mant⟩ : String) ++ "e" ++ (if e < 0 then "-" else "+") ++ es
    else if 0 ≤ e then
      let ip := ds.take (e.toNat + 1)
      let fp := stripZeros (ds.drop (e.toNat + 1))
      if fp.isEmpty then (⟨ip⟩ : String) else (⟨ip ++ '.' :: fp⟩ : String)
    else
      (⟨'0' :: '.' :: (List.replicate (e.natAbs - 1) '0' ++ stripZeros ds)⟩ : String)

/-- `normalizePercentRGB`: split off the text before the first `%`; if
it contains a dot, parse it as a float, clamp to 0–100 and re-serialize
with `FormatFloat('g', 4)`; otherwise parse it with `Atoi`, clamp and
re-serialize with `Itoa`.  `none` is the returned parse error.  (The
eventual `return "", err` with a nil error after the range conditions is
unreachable: a parsed value is a number and one of the three conditions
holds.) -/
def normalizePercentRGB (value : String) : Option String :=
  let percent := beforePercent value
  if percent.data.contains '.' then
    match goParseFloat percent with
    | some percentf =>
      some (if intQ 0 ≤ percentf ∧ percentf ≤ intQ 100 then formatG4 percentf ++ "%"
        else if percentf < intQ 0 then "0%" else "100%")
    | none => none
  else
    match goAtoi percent with
    | some percenti =>
      some (if 0 ≤ percenti ∧ percenti ≤ 100 then toString percenti ++ "%"
        else if percenti < 0 then "0%" else "100%")
    | none => none

/-- Loop over a slice, converting every element and aborting on the
first error with no partial result (`return nil, err`). -/
def traverseOpt (f : α → Option β) : List α → Option (List β)
  | [] => some []
  | a :: t => (f a).bind fun b => (traverseOpt f t).map fun bs => b :: bs

/-- `NormalizePercentTriplet`: normalize every component of the slice in
order, aborting on the first error. -/
def NormalizePercentTriplet (rgbTriplet : List String) : Option (List String) :=
  traverseOpt normalizePercentRGB rgbTriplet

/-- `percentToInteger`: parse the text before the first `%`, compute
`255 * (num / 100.0)` and round — floor when the fractional part is
below one half, ceiling otherwise. -/
def percentToInteger (percent : String) : Option ℤ :=
  (goParseFloat (beforePercent percent)).map fun parsed =>
    let num := qmul (intQ 255) (qdivNat parsed 100)
    if qsub num (intQ (qfloor num)) < mkRat 1 2 then qfloor num else qceil num

/-- `RGBPercentToRGB`: normalize the percent triplet, then convert every
component with `percentToInteger`, aborting on the first error. -/
def RGBPercentToRGB (rgbPercentTriplet : List String) : Option (List ℤ) :=
  (NormalizePercentTriplet rgbPercentTriplet).bind (traverseOpt percentToInteger)

/-- The `specials` map literal of `RGBToRGBPercent`, in source order. -/
def specials : List (ℤ × String) :=
  [(255, "100%"), (128, "50%"), (64, "25%"), (32, "12.50%"), (16, "6.25%"), (0, "0%")]

/-- Lookup in the `specials` map. -/
def specialLookup (v : ℤ) : Option String :=
  (specials.find? fun p => p.1 == v).map (·.2)

/-- One component of `RGBToRGBPercent`: the special literal when the
(already normalized) value is a key of `specials`, otherwise
`(float64(v) / 255.0) * 100` formatted with `FormatFloat('g', 4)` and a
trailing `%`. -/
def percentComponent (v : ℤ) : String :=
  match specialLookup v with
  | some special => special
  | none => formatG4 (qmul (qdivNat (intQ v) 255) (intQ 100)) ++ "%"

/-- `RGBToRGBPercent`: normalize the triplet (panicking on a short
slice: `none`), then map `percentComponent`; it never returns an
error. -/
def RGBToRGBPercent (rgbTriplet : List ℤ) : Option (List String) :=
  (NormalizeIntegerTriplet rgbTriplet).map fun t => t.map percentComponent

/-- The integer-to-percent component conversion exactly as claim C6's
sentence states it: the literal six-entry special table as an if-chain,
otherwise `value / 255 * 100` (ordinary field operations of `ℚ`)
formatted to 4 significant digits with a trailing `%`. -/
def percentComponentSpec (v : ℤ) : String :=
  if v = 0 then "0%"
  else if v = 16 then "6.25%"
  else if v = 32 then "12.50%"
  else if v = 64 then "25%"
  else if v = 128 then "50%"
  else if v = 255 then "100%"
  else formatG4 ((v : ℚ) / 255 * 100) ++ "%"

/-! ### Association-list lemmas -/

theorem mapLookup_mem {m : List (String × String)} {k v : String}
    (h : mapLookup m k = some v) : (k, v) ∈ m := by
  unfold mapLookup at h
  cases hf : m.find? (fun p => p.1 == k) with
  | none => rw [hf] at h; simp at h
  | some p =>
    rw [hf] at h
    have hp := List.find?_some hf
    have hm : p ∈ m := List.mem_of_find?_eq_some hf
    have h1 : p.1 = k := by simpa using hp
    have h2 : p.2 = v := by simpa using h
    cases p
    simp only at h1 h2
    rw [← h1, ← h2]
    exact hm

theorem mapLookup_isSome_of_mem {m : List (String × String)} {k v : String}
    (h : (k, v) ∈ m) : ∃ v', mapLookup m k = some v' := by
  have hs : (m.find? (fun p => p.1 == k)).isSome :=
    List.find?_isSome.mpr ⟨(k, v), h, by simp⟩
  cases hf : m.find? (fun p => p.1 == k) with
  | none => rw [hf] at hs; simp at hs
  | some p => exact ⟨p.2, by unfold mapLookup; rw [hf]; rfl⟩

theorem mapLookup_eq_of_mem_nodup {m : List (String × String)}
    (hnd : (m.map Prod.fst).Nodup) {k v : String} (h : (k, v) ∈ m) :
    mapLookup m k = some v := by
  induction m with
  | nil => simp at h
  | cons p t ih =>
    rw [List.map_cons, List.nodup_cons] at hnd
    rcases List.mem_cons.mp h with h1 | h1
    · rw [← h1]
      unfold mapLookup
      rw [List.find?_cons_of_pos _ (by simp)]
      rfl
    · have hne : p.1 ≠ k := by
        intro he
        exact hnd.1 (he ▸ List.mem_map.mpr ⟨(k, v), h1, rfl⟩)
      unfold mapLookup
      rw [List.find?_cons_of_neg _ (by simpa using hne)]
      exact ih hnd.2 h1

theorem mapLookup_append (l₁ l₂ : List (String × String)) (k : String) :
    mapLookup (l₁ ++ l₂) k = (mapLookup l₁ k).or (mapLookup l₂ k) := by
  unfold mapLookup
  rw [List.find?_append]
  cases l₁.find? (fun p => p.1 == k) <;> simp

theorem mem_reverseMap {iter : List (String × String)} {h n : String} :
    (h, n) ∈ reverseMap iter ↔ (n, h) ∈ iter := by
  unfold reverseMap
  rw [List.mem_reverse, List.mem_map]
  constructor
  · rintro ⟨⟨a, b⟩, hm, he⟩
    obtain ⟨rfl, rfl⟩ : b = h ∧ a = n := by
      simpa [Prod.ext_iff] using he
    exact hm
  · intro hm
    exact ⟨(n, h), hm, rfl⟩

/-! ### Clamping -/

theorem normalizeIntegerRGB_bounds (n : ℤ) :
    0 ≤ normalizeIntegerRGB n ∧ normalizeIntegerRGB n ≤ 255 := by
  unfold normalizeIntegerRGB
  split_ifs <;> omega

/-! ### Hex digit encoding facts, by exhaustive check over a byte -/

set_option maxRecDepth 4000 in
theorem byteFacts : ∀ n : Fin 256,
    isHexDigitGo (hexChar ((n : ℕ) / 16)) = true
    ∧ isHexDigitGo (hexChar ((n : ℕ) % 16)) = true
    ∧ toLowerGo (hexChar ((n : ℕ) / 16)) = hexChar ((n : ℕ) / 16)
    ∧ toLowerGo (hexChar ((n : ℕ) % 16)) = hexChar ((n : ℕ) % 16)
    ∧ decodeHexPair (hexChar ((n : ℕ) / 16)) (hexChar ((n : ℕ) % 16)) = some (n : ℕ) := by
  decide

theorem byteAll (m : ℤ) (h0 : 0 ≤ m) (h1 : m ≤ 255) :
    isHexDigitGo (hexChar (m.toNat / 16)) = true
    ∧ isHexDigitGo (hexChar (m.toNat % 16)) = true
    ∧ toLowerGo (hexChar (m.toNat / 16)) = hexChar (m.toNat / 16)
    ∧ toLowerGo (hexChar (m.toNat % 16)) = hexChar (m.toNat % 16)
    ∧ decodeHexPair (hexChar (m.toNat / 16)) (hexChar (m.toNat % 16)) = some m.toNat := by
  have hm : m.toNat < 256 := by omega
  exact byteFacts ⟨m.toNat, hm⟩

/-! ### Claim theorems: integer-triplet operations -/

/-- C9: `NormalizeIntegerTriplet` clamps each of the three components
independently to [0, 255] and never fails: a three-component slice
always yields the componentwise `normalizeIntegerRGB`, which passes a
value in [0, 255] through unchanged, sends a negative value to 0 and a
value above 255 to 255, so every output component lies in [0, 255]. -/
theorem C9_normalizeIntegerTriplet_clamps :
    (∀ r g b : ℤ, ∀ rest : List ℤ,
      NormalizeIntegerTriplet (r :: g :: b :: rest) =
        some [normalizeIntegerRGB r, normalizeIntegerRGB g, normalizeIntegerRGB b])
    ∧ ∀ n : ℤ,
        (0 ≤ normalizeIntegerRGB n ∧ normalizeIntegerRGB n ≤ 255)
        ∧ (0 ≤ n ∧ n ≤ 255 → normalizeIntegerRGB n = n)
        ∧ (n < 0 → normalizeIntegerRGB n = 0)
        ∧ (255 < n → normalizeIntegerRGB n = 255) := by
  refine ⟨fun r g b rest => rfl, fun n => ⟨normalizeIntegerRGB_bounds n, ?_, ?_, ?_⟩⟩ <;>
    (unfold normalizeIntegerRGB; split_ifs <;> omega)

/-- C9 witness: the clamping theorem applied at the concrete triplet
(270, -20, 128). -/
theorem C9_witness :
    NormalizeIntegerTriplet [270, -20, 128] = some [255, 0, 128] := by
  have h := C9_normalizeIntegerTriplet_clamps.1 270 (-20) 128 []
  have h270 := (C9_normalizeIntegerTriplet_clamps.2 270).2.2.2 (by norm_num)
  have hneg := (C9_normalizeIntegerTriplet_clamps.2 (-20)).2.2.1 (by norm_num)
  have h128 := (C9_normalizeIntegerTriplet_clamps.2 128).2.1 (by norm_num)
  rw [h, h270, hneg, h128]

/-- C10: every integer-triplet operation reads slice positions 0, 1 and
2 unconditionally: on a slice with fewer than three elements
`NormalizeIntegerTriplet` — and through it `RGBToHex`,
`RGBToRGBPercent` and `RGBToName` — panics with an out-of-range access
(modelled `none`) rather than returning a typed failure, and elements
beyond the third never affect the result. -/
theorem C10_short_triplet_panics :
    (∀ t : List ℤ, t.length < 3 →
      NormalizeIntegerTriplet t = none ∧ RGBToHex t = none ∧ RGBToRGBPercent t = none
      ∧ ∀ spec h4iter c3iter, RGBToName t spec h4iter c3iter = none)
    ∧ (∀ r g b : ℤ, ∀ rest : List ℤ,
      NormalizeIntegerTriplet (r :: g :: b :: rest) = NormalizeIntegerTriplet [r, g, b]
      ∧ RGBToHex (r :: g :: b :: rest) = RGBToHex [r, g, b]
      ∧ RGBToRGBPercent (r :: g :: b :: rest) = RGBToRGBPercent [r, g, b]
      ∧ ∀ spec h4iter c3iter,
          RGBToName (r :: g :: b :: rest) spec h4iter c3iter =
            RGBToName [r, g, b] spec h4iter c3iter) := by
  constructor
  · intro t ht
    have hnone : NormalizeIntegerTriplet t = none := by
      rcases t with _ | ⟨x, t⟩
      · rfl
      rcases t with _ | ⟨y, t⟩
      · rfl
      rcases t with _ | ⟨z, t⟩
      · rfl
      · simp only [List.length_cons] at ht; omega
    exact ⟨hnone, by simp [RGBToHex, hnone], by simp [RGBToRGBPercent, hnone],
      fun spec h4 c3 => by simp [RGBToName, hnone]⟩
  · exact fun r g b rest => ⟨rfl, rfl, rfl, fun _ _ _ => rfl⟩

/-- C10 witness: the two-element slice [5, 9] makes every
integer-triplet operation panic. -/
theorem C10_witness :
    NormalizeIntegerTriplet [5, 9] = none ∧ RGBToHex [5, 9] = none
    ∧ RGBToRGBPercent [5, 9] = none := by
  have h := C10_short_triplet_panics.1 [5, 9] (by decide)
  exact ⟨h.1, h.2.1, h.2.2.1⟩

/-! ### Claim theorems: hexadecimal normalization -/

/-- C1 (corrected): on every input that does not match `HexColorRegex`
(`hexMatchDigits` is `none`: wrong length, missing `#`, non-hex
characters, empty string), `NormalizeHex` panics indexing the nil
`FindStringSubmatch` result — it has no error return at all — and
`HexToRGB`, which routes through it, panics likewise; `none` models the
panic, and no `InvalidHexFormat` failure is ever returned. -/
theorem C1_invalid_hex_panics (s : String) (h : hexMatchDigits s.data = none) :
    NormalizeHex s = none ∧ HexToRGB s = none := by
  constructor
  · simp [NormalizeHex, h]
  · simp [HexToRGB, NormalizeHex, h]

/-- C1 witness: the empty string does not match the pattern, and both
functions panic on it. -/
theorem C1_witness : NormalizeHex "" = none ∧ HexToRGB "" = none :=
  C1_invalid_hex_panics "" (by decide)

/-- C1 counterexample to the claim as stated: on `"#12345"` (five hex
digits: wrong length) `NormalizeHex` and `HexToRGB` panic (`none`, the
runtime index-out-of-range) instead of returning a typed
`InvalidHexFormat` failure — `NormalizeHex`'s Go type `string → string`
has no failure channel to return one. -/
theorem C1_counterexample : NormalizeHex "#12345" = none ∧ HexToRGB "#12345" = none := by
  exact ⟨by decide, by decide⟩

/-! ### Claim theorems: hex/integer round trip -/

/-- C7: for every integer triplet, including out-of-range components,
`HexToRGB (RGBToHex t)` succeeds and equals
`NormalizeIntegerTriplet t`. -/
theorem C7_rgb_hex_roundtrip (r g b : ℤ) :
    (RGBToHex [r, g, b]).bind HexToRGB = NormalizeIntegerTriplet [r, g, b] := by
  obtain ⟨hr0, hr1⟩ := normalizeIntegerRGB_bounds r
  obtain ⟨hg0, hg1⟩ := normalizeIntegerRGB_bounds g
  obtain ⟨hb0, hb1⟩ := normalizeIntegerRGB_bounds b
  obtain ⟨hrx1, hrx2, hrl1, hrl2, hrd⟩ := byteAll _ hr0 hr1
  obtain ⟨hgx1, hgx2, hgl1, hgl2, hgd⟩ := byteAll _ hg0 hg1
  obtain ⟨hbx1, hbx2, hbl1, hbl2, hbd⟩ := byteAll _ hb0 hb1
  simp only [RGBToHex, NormalizeIntegerTriplet, Option.map_some', Option.some_bind,
    List.map_cons, List.map_nil, List.flatten, encodeByte, List.cons_append,
    List.nil_append, HexToRGB, NormalizeHex, hexMatchDigits, List.length_cons,
    List.length_nil, List.all_cons, List.all_nil, hrx1, hrx2, hgx1, hgx2, hbx1, hbx2,
    Bool.and_true, Bool.true_and, Bool.or_true, Bool.true_or]
  norm_num
  simp only [List.map_cons, List.map_nil, hrl1, hrl2, hgl1, hgl2, hbl1, hbl2, hrd,
    hgd, hbd, Option.some_bind, Option.map_some']
  rw [Int.toNat_of_nonneg hr0, Int.toNat_of_nonneg hg0, Int.toNat_of_nonneg hb0]

/-! ### Claim theorems: the name tables -/

/-- C8: the css2 name table is the html4 table (the same map), css21 is
html4 plus the single entry `orange → #ffa500`, so `NameToHex` agrees on
css2 and html4 for every name; `orange` is unknown in css2, is
`#ffa500` in css21, and `white` is `#ffffff` in css3. -/
theorem C8_table_relations :
    (∀ name, NameToHex name "css2" = NameToHex name "html4")
    ∧ (∀ name, NameToHex name "css21" =
        (NameToHex name "html4").or
          (if lowerStr name = "orange" then some "#ffa500" else none))
    ∧ NameToHex "orange" "css2" = none
    ∧ NameToHex "orange" "css21" = some "#ffa500"
    ∧ NameToHex "white" "css3" = some "#ffffff" := by
  refine ⟨fun name => rfl, fun name => ?_, by decide, by decide, by decide⟩
  show mapLookup CSS21NamesToHex (lowerStr name) =
    (mapLookup HTML4NamesToHex (lowerStr name)).or _
  rw [CSS21NamesToHex, mapLookup_append]
  congr 1
  by_cases h : lowerStr name = "orange"
  · simp [mapLookup, List.find?, h]
  · have h' : ("orange" == lowerStr name) = false := by
      simp only [beq_eq_false_iff_ne, ne_eq]
      exact fun he => h he.symm
    simp [mapLookup, List.find?, h', h]

/-! ### Bridges from the `mkRat` toolkit to the field operations of `ℚ` -/

theorem den_cast_ne_zero (a : ℚ) : ((a.den : ℚ)) ≠ 0 :=
  Nat.cast_ne_zero.mpr a.den_nz

theorem intQ_eq (n : ℤ) : intQ n = (n : ℚ) := by
  unfold intQ
  rw [Rat.mkRat_eq_div]
  simp

theorem qneg_eq (a : ℚ) : qneg a = -a := by
  unfold qneg
  rw [Rat.mkRat_eq_div]
  push_cast
  rw [neg_div, Rat.num_div_den]

theorem qadd_eq (a b : ℚ) : qadd a b = a + b := by
  unfold qadd
  rw [Rat.mkRat_eq_div]
  have ha := den_cast_ne_zero a
  have hb := den_cast_ne_zero b
  conv_rhs => rw [← Rat.num_div_den a, ← Rat.num_div_den b]
  push_cast
  field_simp

theorem qsub_eq (a b : ℚ) : qsub a b = a - b := by
  unfold qsub
  rw [qadd_eq, qneg_eq, sub_eq_add_neg]

theorem qmul_eq (a b : ℚ) : qmul a b = a * b := by
  unfold qmul
  rw [Rat.mkRat_eq_div]
  have ha := den_cast_ne_zero a
  have hb := den_cast_ne_zero b
  conv_rhs => rw [← Rat.num_div_den a, ← Rat.num_div_den b]
  push_cast
  field_simp

theorem qdivNat_eq (a : ℚ) (n : ℕ) (hn : n ≠ 0) : qdivNat a n = a / n := by
  unfold qdivNat
  rw [Rat.mkRat_eq_div]
  have ha := den_cast_ne_zero a
  have hn' : ((n : ℚ)) ≠ 0 := Nat.cast_ne_zero.mpr hn
  conv_rhs => rw [← Rat.num_div_den a]
  push_cast
  field_simp

theorem qfloor_eq (a : ℚ) : qfloor a = ⌊a⌋ := by
  unfold qfloor
  rw [Int.fdiv_eq_ediv _ (Int.natCast_nonneg a.den)]
  exact Rat.floor_def.symm

theorem qceil_eq (a : ℚ) : qceil a = ⌈a⌉ := by
  unfold qceil
  have h2 : ⌊-a⌋ = (-a.num).fdiv (a.den : ℤ) := by
    rw [Rat.floor_def, Rat.neg_num, Rat.neg_den,
      ← Int.fdiv_eq_ediv _ (Int.natCast_nonneg a.den)]
  rw [← h2, Int.floor_neg, neg_neg]

theorem mkRat_half : mkRat 1 2 = (1 : ℚ) / 2 := by
  rw [Rat.mkRat_eq_div]
  norm_num

/-- The rounding branch of `percentToInteger` — floor when the
fractional part is below one half, ceiling otherwise — is exactly
round-half-up, `⌊x + 1/2⌋`. -/
theorem roundBranch_eq (x : ℚ) :
    (if qsub x (intQ (qfloor x)) < mkRat 1 2 then qfloor x else qceil x) =
      ⌊x + 1 / 2⌋ := by
  rw [qsub_eq, intQ_eq, qfloor_eq, qceil_eq, mkRat_half]
  by_cases h : x - (⌊x⌋ : ℚ) < 1 / 2
  · rw [if_pos h]
    symm
    rw [Int.floor_eq_iff]
    constructor
    · linarith [Int.floor_le x]
    · linarith
  · rw [if_neg h]
    push_neg at h
    have hceil : ⌈x⌉ = ⌊x⌋ + 1 := by
      rw [Int.ceil_eq_iff]
      constructor
      · push_cast
        linarith [Int.lt_floor_add_one x]
      · push_cast
        linarith [Int.lt_floor_add_one x]
    rw [hceil]
    symm
    rw [Int.floor_eq_iff]
    constructor
    · push_cast
      linarith
    · push_cast
      linarith [Int.lt_floor_add_one x]

/-- `percentToInteger` on a parsable input computes
`⌊255 * (value / 100) + 1/2⌋`. -/
theorem percentToInteger_eq {s : String} {q : ℚ}
    (h : goParseFloat (beforePercent s) = some q) :
    percentToInteger s = some ⌊(255 : ℚ) * (q / 100) + 1 / 2⌋ := by
  unfold percentToInteger
  rw [h]
  simp only [Option.map_some']
  congr 1
  have hnum : qmul (intQ 255) (qdivNat q 100) = (255 : ℚ) * (q / 100) := by
    rw [qmul_eq, intQ_eq, qdivNat_eq q 100 (by norm_num)]
    push_cast
    ring
  show (if qsub (qmul (intQ 255) (qdivNat q 100))
          (intQ (qfloor (qmul (intQ 255) (qdivNat q 100)))) < mkRat 1 2
        then qfloor (qmul (intQ 255) (qdivNat q 100))
        else qceil (qmul (intQ 255) (qdivNat q 100))) = _
  rw [hnum]
  exact roundBranch_eq _

/-! ### Claim theorems: percent triplets -/

/-- C4 (corrected): `NormalizePercentTriplet` fails — aborting the whole
conversion with no partial result — exactly when some component's text
before its first `%` fails to parse (as a float when it contains a dot,
with `Atoi` otherwise).  A trailing `%` is *not* required: `"50"`
normalizes to `"50%"` (see the counterexample). -/
theorem C4_percent_failure_iff :
    (∀ l : List String,
      NormalizePercentTriplet l = none ↔ ∃ s ∈ l, normalizePercentRGB s = none)
    ∧ (∀ s : String, normalizePercentRGB s = none ↔
        (if (beforePercent s).data.contains '.' then
          goParseFloat (beforePercent s) = none
         else goAtoi (beforePercent s) = none)) := by
  constructor
  · intro l
    induction l with
    | nil => simp [NormalizePercentTriplet, traverseOpt]
    | cons a t ih =>
      unfold NormalizePercentTriplet traverseOpt
      unfold NormalizePercentTriplet at ih
      cases ha : normalizePercentRGB a with
      | none => simp [ha]
      | some pa =>
        cases htr : traverseOpt normalizePercentRGB t with
        | none =>
          rw [htr] at ih
          simp only [Option.some_bind, htr, Option.map_none']
          constructor
          · intro _
            obtain ⟨s, hs, hn⟩ := ih.mp rfl
            exact ⟨s, List.mem_cons_of_mem a hs, hn⟩
          · intro _
            trivial
        | some out =>
          rw [htr] at ih
          simp only [Option.some_bind, htr, Option.map_some']
          constructor
          · intro hc
            exact absurd hc (by simp)
          · rintro ⟨s, hs, hnone⟩
            rcases List.mem_cons.mp hs with rfl | hs'
            · rw [ha] at hnone
              exact absurd hnone (by simp)
            · exact absurd (ih.mpr ⟨s, hs', hnone⟩) (by simp)
  · intro s
    unfold normalizePercentRGB
    by_cases hdot : (beforePercent s).data.contains '.'
    · simp only [hdot, if_true]
      cases hp : goParseFloat (beforePercent s) <;> simp [hp]
    · simp only [hdot, Bool.false_eq_true, if_false]
      cases hp : goAtoi (beforePercent s) <;> simp [hp]

/-- C4 witness: the error cases propagate — a malformed middle component
aborts the whole triplet. -/
theorem C4_witness : NormalizePercentTriplet ["10%", "abc%", "10%"] = none := by
  have h := (C4_percent_failure_iff.1 ["10%", "abc%", "10%"]).mpr
    ⟨"abc%", by decide, by decide⟩
  exact h

/-- C4 counterexample to the claim as stated: every component of
`["50", "50", "50"]` lacks the trailing `%`, yet the conversion succeeds
and returns `["50%", "50%", "50%"]` instead of failing with
`InvalidPercentFormat`. -/
theorem C4_counterexample :
    NormalizePercentTriplet ["50", "50", "50"] = some ["50%", "50%", "50%"] := by
  decide

/-- C5: for every well-formed percent triplet (each component
normalizes, and the normalized text parses back to the exact value
`qᵢ`), `RGBPercentToRGB` computes `255 * (percent / 100)` per component
after normalization and rounds with round-half-up, `⌊· + 1/2⌋` —
fractional part below 0.5 rounds down, at least 0.5 rounds up, never
round-to-even (`float64` arithmetic modelled by exact rationals). -/
theorem C5_percent_to_rgb_half_up
    (s₁ s₂ s₃ p₁ p₂ p₃ : String) (q₁ q₂ q₃ : ℚ)
    (h₁ : normalizePercentRGB s₁ = some p₁)
    (h₂ : normalizePercentRGB s₂ = some p₂)
    (h₃ : normalizePercentRGB s₃ = some p₃)
    (g₁ : goParseFloat (beforePercent p₁) = some q₁)
    (g₂ : goParseFloat (beforePercent p₂) = some q₂)
    (g₃ : goParseFloat (beforePercent p₃) = some q₃) :
    RGBPercentToRGB [s₁, s₂, s₃] =
      some [⌊(255 : ℚ) * (q₁ / 100) + 1 / 2⌋,
            ⌊(255 : ℚ) * (q₂ / 100) + 1 / 2⌋,
            ⌊(255 : ℚ) * (q₃ / 100) + 1 / 2⌋] := by
  unfold RGBPercentToRGB NormalizePercentTriplet
  simp only [traverseOpt, h₁, h₂, h₃, Option.some_bind, Option.map_some',
    percentToInteger_eq g₁, percentToInteger_eq g₂, percentToInteger_eq g₃]

set_option maxRecDepth 8000 in
/-- C5 witness: `RGBPercentToRGB(["0%","0%","50%"]) = [0,0,128]`
(127.5 rounds up to 128). -/
theorem C5_witness : RGBPercentToRGB ["0%", "0%", "50%"] = some [0, 0, 128] := by
  have h := C5_percent_to_rgb_half_up "0%" "0%" "50%" "0%" "0%" "50%" 0 0 50
    (by decide) (by decide) (by decide) (by decide) (by decide) (by decide)
  have e0 : ⌊(255 : ℚ) * ((0 : ℚ) / 100) + 1 / 2⌋ = (0 : ℤ) := by
    norm_num [Int.floor_eq_iff]
  have e128 : ⌊(255 : ℚ) * ((50 : ℚ) / 100) + 1 / 2⌋ = (128 : ℤ) := by
    norm_num [Int.floor_eq_iff]
  rw [h, e0, e128]

/-- The component function of `RGBToRGBPercent` agrees with the claim's
if-chain formulation. -/
theorem percentComponent_eq_spec (v : ℤ) :
    percentComponent v = percentComponentSpec v := by
  rcases eq_or_ne v 255 with rfl | h255
  · rfl
  rcases eq_or_ne v 128 with rfl | h128
  · rfl
  rcases eq_or_ne v 64 with rfl | h64
  · rfl
  rcases eq_or_ne v 32 with rfl | h32
  · rfl
  rcases eq_or_ne v 16 with rfl | h16
  · rfl
  rcases eq_or_ne v 0 with rfl | h0
  · rfl
  have harg : qmul (qdivNat (intQ v) 255) (intQ 100) = (v : ℚ) / 255 * 100 := by
    rw [qmul_eq, qdivNat_eq _ _ (by norm_num), intQ_eq, intQ_eq]
    push_cast
    ring
  have e255 : ((255 : ℤ) == v) = false := beq_eq_false_iff_ne.mpr (Ne.symm h255)
  have e128 : ((128 : ℤ) == v) = false := beq_eq_false_iff_ne.mpr (Ne.symm h128)
  have e64 : ((64 : ℤ) == v) = false := beq_eq_false_iff_ne.mpr (Ne.symm h64)
  have e32 : ((32 : ℤ) == v) = false := beq_eq_false_iff_ne.mpr (Ne.symm h32)
  have e16 : ((16 : ℤ) == v) = false := beq_eq_false_iff_ne.mpr (Ne.symm h16)
  have e0 : ((0 : ℤ) == v) = false := beq_eq_false_iff_ne.mpr (Ne.symm h0)
  unfold percentComponent specialLookup specials percentComponentSpec
  simp only [List.find?, e255, e128, e64, e32, e16, e0, h255, h128, h64, h32,
    h16, h0, if_false, Option.map_none', harg]

set_option maxRecDepth 8000 in
/-- C6: `RGBToRGBPercent` first clamps the triplet, then per component
emits the literal special strings {0→"0%", 16→"6.25%", 32→"12.50%",
64→"25%", 128→"50%", 255→"100%"} and otherwise formats
`value / 255 * 100` to 4 significant digits with a trailing `%`; in
particular `RGBToRGBPercent([218,165,32]) = ["85.49%","64.71%","12.50%"]`. -/
theorem C6_rgb_to_rgb_percent :
    RGBToRGBPercent [218, 165, 32] = some ["85.49%", "64.71%", "12.50%"]
    ∧ ∀ r g b : ℤ, RGBToRGBPercent [r, g, b] =
        some [percentComponentSpec (normalizeIntegerRGB r),
              percentComponentSpec (normalizeIntegerRGB g),
              percentComponentSpec (normalizeIntegerRGB b)] := by
  constructor
  · decide
  · intro r g b
    simp [RGBToRGBPercent, NormalizeIntegerTriplet, percentComponent_eq_spec]

/-! ### Reverse-table lemmas for the name/hex round trips (C2, C3) -/

set_option maxRecDepth 4000 in
theorem html4_keys_nodup : (HTML4NamesToHex.map Prod.fst).Nodup := by decide

set_option maxRecDepth 100000 in
theorem css3_keys_nodup : (CSS3NamesToHex.map Prod.fst).Nodup := by decide

set_option maxRecDepth 4000 in
theorem html4_all_facts :
    HTML4NamesToHex.all
      (fun p => (lowerStr p.1 == p.1) && (NormalizeHex p.2 == some p.2)) = true := by
  decide

set_option maxRecDepth 100000 in
theorem css3_all_facts :
    CSS3NamesToHex.all
      (fun p => (lowerStr p.1 == p.1) && (NormalizeHex p.2 == some p.2)) = true := by
  decide

set_option maxRecDepth 4000 in
theorem css21_all_vals :
    CSS21NamesToHex.all (fun p => NormalizeHex p.2 == some p.2) = true := by
  decide

set_option maxRecDepth 4000 in
theorem css3GrayOverrides_all :
    css3GrayOverrides.all
      (fun p => (mapLookup CSS3NamesToHex p.2 == some p.1) && (lowerStr p.2 == p.2)) = true := by
  decide

theorem html4_entry_facts {name hex : String} (hm : (name, hex) ∈ HTML4NamesToHex) :
    lowerStr name = name ∧ NormalizeHex hex = some hex := by
  have h := List.all_eq_true.mp html4_all_facts _ hm
  rw [Bool.and_eq_true, beq_iff_eq, beq_iff_eq] at h
  exact h

theorem css3_entry_facts {name hex : String} (hm : (name, hex) ∈ CSS3NamesToHex) :
    lowerStr name = name ∧ NormalizeHex hex = some hex := by
  have h := List.all_eq_true.mp css3_all_facts _ hm
  rw [Bool.and_eq_true, beq_iff_eq, beq_iff_eq] at h
  exact h

theorem css21_entry_canonical {name hex : String} (hm : (name, hex) ∈ CSS21NamesToHex) :
    NormalizeHex hex = some hex := by
  have h := List.all_eq_true.mp css21_all_vals _ hm
  rwa [beq_iff_eq] at h

theorem css3GrayOverrides_facts {p : String × String} (hm : p ∈ css3GrayOverrides) :
    mapLookup CSS3NamesToHex p.2 = some p.1 ∧ lowerStr p.2 = p.2 := by
  have h := List.all_eq_true.mp css3GrayOverrides_all _ hm
  rw [Bool.and_eq_true, beq_iff_eq, beq_iff_eq] at h
  exact h

/-- A reverse-table lookup only returns names paired with that hex in
the iterated entries. -/
theorem revLookup_mem {iter : List (String × String)} {h n : String}
    (hl : mapLookup (reverseMap iter) h = some n) : (n, h) ∈ iter :=
  mem_reverseMap.mp (mapLookup_mem hl)

/-- A hex that occurs as a value of the iterated entries is found by the
reverse-table lookup, whatever the iteration order. -/
theorem revLookup_isSome {iter : List (String × String)} {n h : String}
    (hm : (n, h) ∈ iter) : ∃ n', mapLookup (reverseMap iter) h = some n' :=
  mapLookup_isSome_of_mem (mem_reverseMap.mpr hm)

/-- Round trip through a reverse table built by plain unordered
inversion (no overrides), for any iteration order: the lookup succeeds
and returns some name that the forward table sends to the same hex. -/
theorem plainRev_lookup {table iter : List (String × String)}
    (hperm : iter.Perm table) (hnd : (table.map Prod.fst).Nodup)
    {name hex : String} (hf : mapLookup table name = some hex) :
    ∃ name', mapLookup (reverseMap iter) hex = some name'
      ∧ mapLookup table name' = some hex := by
  have hm : (name, hex) ∈ iter := hperm.mem_iff.mpr (mapLookup_mem hf)
  obtain ⟨n', hn'⟩ := revLookup_isSome hm
  exact ⟨n', hn',
    mapLookup_eq_of_mem_nodup hnd (hperm.mem_iff.mp (revLookup_mem hn'))⟩

/-- Round trip through the css3 reverse table (inversion followed by the
seven gray overrides), for any iteration order. -/
theorem css3Rev_lookup {c3iter : List (String × String)}
    (hperm : c3iter.Perm CSS3NamesToHex) {name hex : String}
    (hf : mapLookup CSS3NamesToHex name = some hex) :
    ∃ name', mapLookup (CSS3HexToNames c3iter) hex = some name'
      ∧ mapLookup CSS3NamesToHex name' = some hex := by
  unfold CSS3HexToNames
  rw [mapLookup_append]
  cases hov : mapLookup css3GrayOverrides hex with
  | some n' =>
    have hfw := (css3GrayOverrides_facts (mapLookup_mem hov)).1
    exact ⟨n', rfl, hfw⟩
  | none =>
    have hm : (name, hex) ∈ c3iter := hperm.mem_iff.mpr (mapLookup_mem hf)
    obtain ⟨n', hn'⟩ := revLookup_isSome hm
    refine ⟨n', hn', ?_⟩
    exact mapLookup_eq_of_mem_nodup css3_keys_nodup
      (hperm.mem_iff.mp (revLookup_mem hn'))

/-! ### Claim theorems: reverse-table determinism and round trips -/

/-- C2 (corrected): the fixed canonical overrides are applied only to
the css3 reverse table, whose seven gray-family hex values therefore
resolve to the `-gray` spelling under *every* map iteration order; the
html4/css2 reverse table (one shared map) receives no override, so its
lookup of `#808080` merely lands on whichever of `gray`/`grey` the
run's iteration order wrote last; css2 always agrees with html4 because
the map object is shared. -/
theorem C2_reverse_table_overrides :
    (∀ h4iter c3iter : List (String × String),
      HexToName "#a9a9a9" "css3" h4iter c3iter = some (some "darkgray")
      ∧ HexToName "#2f4f4f" "css3" h4iter c3iter = some (some "darkslategray")
      ∧ HexToName "#696969" "css3" h4iter c3iter = some (some "dimgray")
      ∧ HexToName "#808080" "css3" h4iter c3iter = some (some "gray")
      ∧ HexToName "#d3d3d3" "css3" h4iter c3iter = some (some "lightgray")
      ∧ HexToName "#778899" "css3" h4iter c3iter = some (some "lightslategray")
      ∧ HexToName "#708090" "css3" h4iter c3iter = some (some "slategray"))
    ∧ (∀ h4iter c3iter : List (String × String), h4iter.Perm HTML4NamesToHex →
      ∃ n, HexToName "#808080" "html4" h4iter c3iter = some (some n)
        ∧ (n = "gray" ∨ n = "grey")
        ∧ HexToName "#808080" "css2" h4iter c3iter = some (some n)) := by
  constructor
  · exact fun h4iter c3iter => ⟨rfl, rfl, rfl, rfl, rfl, rfl, rfl⟩
  · intro h4iter c3iter hperm
    obtain ⟨n, hrev, hfwd⟩ := plainRev_lookup hperm html4_keys_nodup
      (show mapLookup HTML4NamesToHex "gray" = some "#808080" by decide)
    have hmem := mapLookup_mem hfwd
    have hn : n = "gray" ∨ n = "grey" := by
      simp only [HTML4NamesToHex, List.mem_cons, List.mem_singleton,
        Prod.mk.injEq] at hmem
      rcases hmem with h | h | h | h | h | h | h | h | h | h | h | h | h | h | h | h | h <;>
        simp_all
    have hform : HexToName "#808080" "html4" h4iter c3iter =
        some (mapLookup (reverseMap h4iter) "#808080") := rfl
    have hform2 : HexToName "#808080" "css2" h4iter c3iter =
        some (mapLookup (reverseMap h4iter) "#808080") := rfl
    exact ⟨n, by rw [hform, hrev], hn, by rw [hform2, hrev]⟩

/-- C2 witness: at the source-order iteration of the html4 table the
shared html4/css2 reverse lookup of `#808080` exists and is one of the
two colliding spellings. -/
theorem C2_witness :
    ∃ n, HexToName "#808080" "html4" HTML4NamesToHex CSS3NamesToHex = some (some n)
      ∧ (n = "gray" ∨ n = "grey")
      ∧ HexToName "#808080" "css2" HTML4NamesToHex CSS3NamesToHex = some (some n) :=
  C2_reverse_table_overrides.2 HTML4NamesToHex CSS3NamesToHex (List.Perm.refl _)

set_option maxRecDepth 4000 in
/-- C2 counterexample to the claim as stated: the html4 entry order of
the source (a legal iteration order, `Perm` to itself) makes
`HexToName("#808080", html4)` and `HexToName("#808080", css2)` return
`"grey"`, not `"gray"` — the claimed overrides are never applied to the
html4/css2 reverse table. -/
theorem C2_counterexample :
    List.Perm HTML4NamesToHex HTML4NamesToHex
    ∧ HexToName "#808080" "html4" HTML4NamesToHex CSS3NamesToHex = some (some "grey")
    ∧ HexToName "#808080" "css2" HTML4NamesToHex CSS3NamesToHex = some (some "grey") :=
  ⟨List.Perm.refl _, by decide, by decide⟩

/-- C3 (corrected): for html4, css2 and css3 and every name of the
specification's forward table, the round trip
`HexToName (NameToHex name spec) spec` succeeds under every map
iteration order and returns *some* name the forward table sends to the
same hex value (for the gray-family hexes of css3 it is the `-gray`
spelling, by C2's theorem); for css21 the round trip *always* fails with
a returned error, because `CSS21HexToNames` is built from the
still-empty `CSS21NamesToHex` before `init()` fills it. -/
theorem C3_roundtrip :
    (∀ spec, spec = "html4" ∨ spec = "css2" ∨ spec = "css3" →
      ∀ h4iter c3iter : List (String × String),
        h4iter.Perm HTML4NamesToHex → c3iter.Perm CSS3NamesToHex →
      ∀ name hex, NameToHex name spec = some hex →
        ∃ name', HexToName hex spec h4iter c3iter = some (some name')
          ∧ NameToHex name' spec = some hex)
    ∧ (∀ name hex, ∀ h4iter c3iter : List (String × String),
        NameToHex name "css21" = some hex →
        HexToName hex "css21" h4iter c3iter = some none) := by
  constructor
  · intro spec hspec h4iter c3iter hp4 hp3 name hex hnh
    rcases hspec with rfl | rfl | rfl
    · rw [show NameToHex name "html4" = mapLookup HTML4NamesToHex (lowerStr name)
        from rfl] at hnh
      have hcanon := (html4_entry_facts (mapLookup_mem hnh)).2
      obtain ⟨n', hrev, hfwd⟩ := plainRev_lookup hp4 html4_keys_nodup hnh
      have hlow := (html4_entry_facts (mapLookup_mem hfwd)).1
      refine ⟨n', ?_, ?_⟩
      · rw [show HexToName hex "html4" h4iter c3iter =
            (NormalizeHex hex).map (fun m => mapLookup (reverseMap h4iter) m)
          from rfl, hcanon, Option.map_some', hrev]
      · rw [show NameToHex n' "html4" = mapLookup HTML4NamesToHex (lowerStr n')
          from rfl, hlow]
        exact hfwd
    · rw [show NameToHex name "css2" = mapLookup HTML4NamesToHex (lowerStr name)
        from rfl] at hnh
      have hcanon := (html4_entry_facts (mapLookup_mem hnh)).2
      obtain ⟨n', hrev, hfwd⟩ := plainRev_lookup hp4 html4_keys_nodup hnh
      have hlow := (html4_entry_facts (mapLookup_mem hfwd)).1
      refine ⟨n', ?_, ?_⟩
      · rw [show HexToName hex "css2" h4iter c3iter =
            (NormalizeHex hex).map (fun m => mapLookup (reverseMap h4iter) m)
          from rfl, hcanon, Option.map_some', hrev]
      · rw [show NameToHex n' "css2" = mapLookup HTML4NamesToHex (lowerStr n')
          from rfl, hlow]
        exact hfwd
    · rw [show NameToHex name "css3" = mapLookup CSS3NamesToHex (lowerStr name)
        from rfl] at hnh
      have hcanon := (css3_entry_facts (mapLookup_mem hnh)).2
      obtain ⟨n', hrev, hfwd⟩ := css3Rev_lookup hp3 hnh
      have hlow := (css3_entry_facts (mapLookup_mem hfwd)).1
      refine ⟨n', ?_, ?_⟩
      · rw [show HexToName hex "css3" h4iter c3iter =
            (NormalizeHex hex).map (fun m => mapLookup (CSS3HexToNames c3iter) m)
          from rfl, hcanon, Option.map_some', hrev]
      · rw [show NameToHex n' "css3" = mapLookup CSS3NamesToHex (lowerStr n')
          from rfl, hlow]
        exact hfwd
  · intro name hex h4iter c3iter hnh
    rw [show NameToHex name "css21" = mapLookup CSS21NamesToHex (lowerStr name)
      from rfl] at hnh
    have hcanon := css21_entry_canonical (mapLookup_mem hnh)
    rw [show HexToName hex "css21" h4iter c3iter =
        (NormalizeHex hex).map (fun m => mapLookup CSS21HexToNames m) from rfl,
      hcanon, Option.map_some']
    rfl

set_option maxRecDepth 4000 in
/-- C3 witness: the round-trip theorem applied at `"grey"`/css3 with the
source-order iterations, and the css21 failure applied at `"orange"`. -/
theorem C3_witness :
    (∃ name', HexToName "#808080" "css3" HTML4NamesToHex CSS3NamesToHex =
        some (some name')
      ∧ NameToHex name' "css3" = some "#808080")
    ∧ HexToName "#ffa500" "css21" HTML4NamesToHex CSS3NamesToHex = some none :=
  ⟨C3_roundtrip.1 "css3" (Or.inr (Or.inr rfl)) HTML4NamesToHex CSS3NamesToHex
      (List.Perm.refl _) (List.Perm.refl _) "grey" "#808080" (by decide),
    C3_roundtrip.2 "orange" "#ffa500" HTML4NamesToHex CSS3NamesToHex (by decide)⟩

set_option maxRecDepth 4000 in
/-- C3 counterexample to the claim as stated: `"orange"` is in the css21
forward table and `NameToHex("orange", css21) = "#ffa500"`, but the
round trip `HexToName("#ffa500", css21)` returns an error (`some none`)
— not the name or any canonical alias — under every iteration order,
here the source order. -/
theorem C3_counterexample :
    NameToHex "orange" "css21" = some "#ffa500"
    ∧ HexToName "#ffa500" "css21" HTML4NamesToHex CSS3NamesToHex = some none :=
  ⟨by decide, by decide⟩

end Webcolors
